import Mathlib

/- Formal model of the GWC 2024 grid-adventure game (src/main.py):
   tile behaviors, items, blocks, the map builder, the level catalog and the
   turn engine `Player.take_turn`.  Drawing calls (`draw`, `rect`, `text`,
   `print`) have no effect on game state and are omitted; everything else is
   translated statement by statement.  Python runtime errors (IndexError on
   list indexing, KeyError on dictionary lookup) are modelled by `Option`:
   a result of `none` means the corresponding Python call raises. -/

/-- Tile behavior variants: the `TileType` subclasses of the source. -/
inductive Tile where
  | grass | ice | water | rock | rockFloor | teleporter
  | sludge | lava | healBlock | oneTimeHeal | quickSand
  deriving DecidableEq

/-- Item variants: the `Item` subclasses of the source (only `Key` exists). -/
inductive ItemKind where
  | key
  deriving DecidableEq

/-- One grid cell (`Block`): a tile behavior, an optional item, fixed draw
coordinates, and the player-present flag (`has_player`, class default False). -/
structure Block where
  tiletype : Tile
  item : Option ItemKind
  x : Int
  y : Int
  hasPlayer : Bool
  deriving DecidableEq

/-- The player fields that tile/item callbacks and win predicates can read or
write (the mutable attributes of `Player` other than the map and flags). -/
structure PView where
  health : Int
  currency : Int
  hydration : Int
  inventory : List String
  x : Int
  y : Int

/-- The `Map` object: the win predicate captured from the level template and
the 2-D block array `blocks`, indexed `[y][x]`. -/
structure GameMap where
  winCondition : PView → Bool
  blocks : List (List Block)

/-- The full mutable game state: the `Player` singleton together with its
current `Map`. -/
structure GState where
  health : Int
  currency : Int
  hydration : Int
  inventory : List String
  x : Int
  y : Int
  gameOver : Bool
  chosenLevel : Option String
  map : GameMap

/-- Project the player-visible fields out of a game state. -/
def pview (s : GState) : PView :=
  { health := s.health, currency := s.currency, hydration := s.hydration,
    inventory := s.inventory, x := s.x, y := s.y }

/-- Python list indexing `l[i]`: non-negative indices read directly, negative
indices wrap from the end, and anything else raises (modelled as `none`). -/
def pyGet {α : Type} (l : List α) (i : Int) : Option α :=
  if 0 ≤ i then l[i.toNat]?
  else
    let j : Int := (l.length : Int) + i
    if 0 ≤ j then l[j.toNat]? else none

/-- Python list element assignment `l[i] = a` at an index where reading
succeeds (out-of-range writes never occur on the traced code paths). -/
def pySet {α : Type} (l : List α) (i : Int) (a : α) : List α :=
  if 0 ≤ i then l.set i.toNat a
  else
    let j : Int := (l.length : Int) + i
    if 0 ≤ j then l.set j.toNat a else l

/-- Python `blocks[yi][xi]`. -/
def get2 (bs : List (List Block)) (yi xi : Int) : Option Block :=
  match pyGet bs yi with
  | none => none
  | some row => pyGet row xi

/-- Replace the block object at `blocks[yi][xi]` (Python mutates the `Block`
object in place; the model rebuilds the surrounding lists). -/
def set2 (bs : List (List Block)) (yi xi : Int) (b : Block) : List (List Block) :=
  match pyGet bs yi with
  | none => bs
  | some row => pySet bs yi (pySet row xi b)

/-- Nat-indexed grid lookup, used to state grid invariants. -/
def get2N (bs : List (List Block)) (yi xi : Nat) : Option Block :=
  match bs[yi]? with
  | none => none
  | some row => row[xi]?

/-- `Player.has`: Python `item_name in self.inventory`. -/
def hasItem (inv : List String) (name : String) : Bool :=
  decide (name ∈ inv)

/-- `can_enter` dispatch: the base class returns True, `Water` requires
flippers, `Rock` always refuses. -/
def tileCanEnter (t : Tile) (inv : List String) : Bool :=
  match t with
  | Tile.water => hasItem inv "flippers"
  | Tile.rock => false
  | _ => true

/-- `can_leave` dispatch: no subclass overrides the base class's True. -/
def tileCanLeave (_ : Tile) : Bool :=
  true

/-- `enter` dispatch on tile behaviors: `Water.enter` sets hydration to 100,
`Sludge.enter` subtracts 8 health, every other variant inherits the no-op. -/
def tileEnter (t : Tile) (p : PView) : PView :=
  match t with
  | Tile.water => { p with hydration := 100 }
  | Tile.sludge => { p with health := p.health - 8 }
  | _ => p

/-- `Block.leave`: run the tile's `leave` callback (`Ice.leave` replaces the
block's tile with a fresh `Water`; all others are no-ops and no callback
touches the player), then clear `has_player`. -/
def blockLeave (b : Block) : Block :=
  let b1 := match b.tiletype with
    | Tile.ice => { b with tiletype := Tile.water }
    | _ => b
  { b1 with hasPlayer := false }

/-- `Block.enter`: run the tile's `enter` callback, then the item's `enter`
callback if an item is present (`Key.enter` claims itself: appends "key" to
the inventory and clears the block's item), then set `has_player`. -/
def blockEnter (b : Block) (p : PView) : Block × PView :=
  let p1 := tileEnter b.tiletype p
  match b.item with
  | some ItemKind.key =>
      ({ b with item := none, hasPlayer := true },
       { p1 with inventory := p1.inventory ++ ["key"] })
  | none => ({ b with hasPlayer := true }, p1)

/-- Candidate destination of `take_turn`: offset one cell for the four
recognized direction tokens, otherwise stay in place. -/
def newCoords (dir : String) (x y : Int) : Int × Int :=
  if dir = "left" then (x - 1, y)
  else if dir = "right" then (x + 1, y)
  else if dir = "up" then (x, y - 1)
  else if dir = "down" then (x, y + 1)
  else (x, y)

/-- The movement phase of `take_turn` (lines 283-299 of main.py): compute the
candidate destination, test `new_x > -1 and new_x < len(blocks) and
new_y > -1 and new_y < len(blocks[0]) and blocks[new_y][new_x].can_enter`
with Python short-circuiting, and on success run `leave` on the origin,
`enter` on the destination (re-read after the leave, as Python re-indexes),
and update the tracked position.  Note the source compares `new_x` against
the row count and `new_y` against the column count. -/
def doMove (dir : String) (s : GState) : Option GState :=
  let nx := (newCoords dir s.x s.y).1
  let ny := (newCoords dir s.x s.y).2
  if (-1 : Int) < nx ∧ nx < (s.map.blocks.length : Int) then
    match pyGet s.map.blocks 0 with
    | none => none
    | some row0 =>
      if (-1 : Int) < ny ∧ ny < (row0.length : Int) then
        match get2 s.map.blocks ny nx with
        | none => none
        | some dest =>
          if tileCanEnter dest.tiletype s.inventory then
            match get2 s.map.blocks s.y s.x with
            | none => none
            | some cur =>
              let blocks1 := set2 s.map.blocks s.y s.x (blockLeave cur)
              match get2 blocks1 ny nx with
              | none => none
              | some dest1 =>
                let bp := blockEnter dest1 (pview s)
                some { s with
                  map := { s.map with blocks := set2 blocks1 ny nx bp.1 },
                  health := bp.2.health, currency := bp.2.currency,
                  hydration := bp.2.hydration, inventory := bp.2.inventory,
                  x := nx, y := ny }
          else some s
      else some s
  else some s

/-- End-of-turn checks of `take_turn` (lines 300-306): three independent `if`
statements, in source order — loss on `health <= 0`, then dehydration decay
on `hydration < 10`, then the win predicate on the current player state. -/
def terminalChecks (s : GState) : GState :=
  let s1 := if s.health ≤ 0 then { s with gameOver := true } else s
  let s2 := if s1.hydration < 10 then { s1 with health := s1.health - 2 } else s1
  if s2.map.winCondition (pview s2) then { s2 with gameOver := true } else s2

/-- Variant of `terminalChecks` with the dehydration branch removed, used to
state that the branch is dead on reachable states. -/
def terminalChecksND (s : GState) : GState :=
  let s1 := if s.health ≤ 0 then { s with gameOver := true } else s
  if s1.map.winCondition (pview s1) then { s1 with gameOver := true } else s1

/-- The `terrain` registry: tile-code to tile-behavior constructor; an
unregistered code raises KeyError. -/
def terrainOf (code : Nat) : Option Tile :=
  match code with
  | 0 => some Tile.grass
  | 1 => some Tile.ice
  | 2 => some Tile.water
  | 3 => some Tile.rock
  | 4 => some Tile.rockFloor
  | 5 => some Tile.teleporter
  | 6 => some Tile.sludge
  | 7 => some Tile.lava
  | 8 => some Tile.healBlock
  | 9 => some Tile.oneTimeHeal
  | 10 => some Tile.quickSand
  | _ => none

/-- The `item` registry: item-code 0 is no item, 1 is a `Key`. -/
def itemOf (code : Nat) : Option (Option ItemKind) :=
  match code with
  | 0 => some none
  | 1 => some (some ItemKind.key)
  | _ => none

/-- A level template from the `maps` dictionary: start coordinates, win
predicate, terrain-code grid and item-code grid. -/
structure LevelDef where
  startX : Int
  startY : Int
  winCondition : PView → Bool
  terrain : List (List Nat)
  items : List (List Nat)

/-- Build one `Block` of `Map.__init__`: look up the terrain and item codes at
`[y][x]`, run them through the registries, and set `has_player` exactly when
`(x, y)` equals the player's (already reset) start position. -/
def mkBlock (lvl : LevelDef) (x y : Nat) (px py : Int) : Option Block :=
  match lvl.terrain[y]? with
  | none => none
  | some trow =>
    match trow[x]? with
    | none => none
    | some tcode =>
      match terrainOf tcode with
      | none => none
      | some tile =>
        match lvl.items[y]? with
        | none => none
        | some irow =>
          match irow[x]? with
          | none => none
          | some icode =>
            match itemOf icode with
            | none => none
            | some it =>
              some { tiletype := tile, item := it, x := (x : Int), y := (y : Int),
                     hasPlayer := decide ((x : Int) = px ∧ (y : Int) = py) }

/-- Build the blocks of one row, for the given column indices. -/
def buildCells (lvl : LevelDef) (y : Nat) (px py : Int) : List Nat → Option (List Block)
  | [] => some []
  | x :: xs =>
    match mkBlock lvl x y px py with
    | none => none
    | some b =>
      match buildCells lvl y px py xs with
      | none => none
      | some rest => some (b :: rest)

/-- Build the rows of the grid, for the given row indices, each row having
`w` cells (Python iterates `range(map_width)` on every row). -/
def buildRows (lvl : LevelDef) (w : Nat) (px py : Int) : List Nat → Option (List (List Block))
  | [] => some []
  | y :: ys =>
    match buildCells lvl y px py (List.range w) with
    | none => none
    | some row =>
      match buildRows lvl w px py ys with
      | none => none
      | some rest => some (row :: rest)

/-- `Map.__init__` grid construction: `map_height = len(terrain)`,
`map_width = len(terrain[0])` (raising on an empty terrain list), then one
`Block` per `(row, col)`. -/
def buildMap (lvl : LevelDef) (px py : Int) : Option (List (List Block)) :=
  match lvl.terrain[0]? with
  | none => none
  | some row0 => buildRows lvl row0.length px py (List.range lvl.terrain.length)

/-- The "demo" level of the `maps` catalog. -/
def demoLevel : LevelDef :=
  { startX := 2, startY := 0,
    winCondition := fun p => p.inventory.count "key" == 3,
    terrain := [[2, 2, 1, 2, 2, 2],
                [2, 1, 1, 2, 2, 2],
                [1, 1, 2, 2, 1, 1],
                [1, 1, 1, 1, 1, 1],
                [2, 2, 2, 2, 2, 1],
                [2, 2, 2, 2, 1, 1]],
    items := [[0, 0, 0, 0, 0, 0],
              [0, 0, 0, 0, 0, 0],
              [1, 0, 0, 0, 0, 1],
              [0, 0, 0, 0, 0, 0],
              [0, 0, 0, 0, 0, 0],
              [0, 0, 0, 0, 1, 0]] }

/-- The "quicksand" level of the `maps` catalog. -/
def quicksandLevel : LevelDef :=
  { startX := 3, startY := 1,
    winCondition := fun p => p.inventory.count "key" == 3,
    terrain := [[10, 10, 10, 10, 10],
                [10, 10, 10, 10, 10],
                [10, 10, 10, 10, 10],
                [10, 10, 10, 10, 10],
                [10, 10, 10, 10, 10]],
    items := [[0, 0, 0, 0, 0],
              [0, 0, 0, 0, 0],
              [0, 1, 0, 0, 0],
              [0, 0, 0, 0, 0],
              [0, 0, 0, 1, 0]] }

/-- The "teleport_across" level of the `maps` catalog. -/
def teleportAcrossLevel : LevelDef :=
  { startX := 3, startY := 3,
    winCondition := fun p => p.inventory.count "key" == 1,
    terrain := [[0, 0, 0, 0, 0, 0, 0, 0, 0, 0, 0, 3, 3, 4, 4],
                [0, 0, 0, 0, 0, 0, 0, 0, 0, 0, 0, 3, 3, 4, 4],
                [0, 0, 0, 0, 0, 0, 0, 0, 0, 0, 0, 3, 4, 4, 4],
                [0, 0, 0, 0, 0, 0, 0, 0, 0, 0, 3, 3, 4, 4, 4],
                [0, 0, 0, 0, 0, 0, 0, 0, 0, 0, 3, 3, 3, 4, 4],
                [0, 0, 0, 0, 0, 0, 0, 0, 0, 3, 3, 3, 3, 4, 4],
                [0, 0, 0, 0, 0, 0, 0, 0, 0, 3, 3, 4, 4, 4, 4],
                [0, 0, 0, 0, 0, 0, 0, 0, 5, 3, 3, 4, 4, 4, 4],
                [0, 0, 0, 0, 0, 0, 0, 0, 0, 3, 3, 4, 4, 4, 4],
                [0, 0, 0, 0, 0, 0, 0, 0, 0, 3, 3, 4, 4, 4, 4],
                [0, 0, 0, 0, 0, 0, 0, 0, 0, 3, 3, 4, 4, 4, 4],
                [0, 0, 0, 0, 0, 0, 0, 0, 3, 3, 3, 4, 4, 4, 4],
                [0, 2, 2, 0, 0, 0, 0, 0, 3, 3, 4, 4, 4, 4, 4],
                [2, 2, 2, 2, 0, 0, 0, 0, 3, 3, 4, 4, 4, 4, 4],
                [2, 2, 2, 2, 2, 2, 0, 0, 3, 3, 3, 4, 4, 4, 4]],
    items := [[0, 0, 0, 0, 0, 0, 0, 0, 0, 0, 0, 0, 0, 0, 0],
              [0, 0, 0, 0, 0, 0, 0, 0, 0, 0, 0, 0, 0, 0, 0],
              [0, 0, 0, 0, 0, 0, 0, 0, 0, 0, 0, 0, 0, 0, 0],
              [0, 0, 0, 0, 0, 0, 0, 0, 0, 0, 0, 0, 0, 0, 0],
              [0, 0, 0, 0, 0, 0, 0, 0, 0, 0, 0, 0, 0, 0, 0],
              [0, 0, 0, 0, 0, 0, 0, 0, 0, 0, 0, 0, 0, 0, 0],
              [0, 0, 0, 0, 0, 0, 0, 0, 0, 0, 0, 0, 0, 0, 0],
              [0, 0, 0, 0, 0, 0, 0, 0, 0, 0, 0, 0, 0, 0, 0],
              [0, 0, 0, 0, 0, 0, 0, 0, 0, 0, 0, 0, 0, 1, 0],
              [0, 0, 0, 0, 0, 0, 0, 0, 0, 0, 0, 0, 0, 0, 0],
              [0, 0, 0, 0, 0, 0, 0, 0, 0, 0, 0, 0, 0, 0, 0],
              [0, 0, 0, 0, 0, 0, 0, 0, 0, 0, 0, 0, 0, 0, 0],
              [0, 0, 0, 0, 0, 0, 0, 0, 0, 0, 0, 0, 0, 0, 0],
              [0, 0, 0, 0, 0, 0, 0, 0, 0, 0, 0, 0, 0, 0, 0],
              [0, 0, 0, 0, 0, 0, 0, 0, 0, 0, 0, 0, 0, 0, 0]] }

/-- The "sludge_lavafields" level of the `maps` catalog. -/
def sludgeLavafieldsLevel : LevelDef :=
  { startX := 3, startY := 0,
    winCondition := fun p => p.inventory.count "key" == 2,
    terrain := [[6, 6, 6, 4, 6, 6, 7],
                [6, 7, 7, 7, 6, 6, 7],
                [6, 7, 7, 7, 6, 7, 3],
                [6, 6, 3, 6, 6, 3, 4],
                [3, 6, 3, 6, 7, 6, 6],
                [4, 4, 4, 6, 6, 6, 7],
                [4, 4, 4, 4, 6, 7, 7]],
    items := [[0, 0, 0, 0, 0, 0, 0],
              [0, 0, 0, 0, 0, 0, 0],
              [0, 0, 0, 0, 0, 0, 0],
              [0, 0, 0, 0, 0, 0, 1],
              [0, 0, 0, 0, 0, 0, 0],
              [0, 1, 0, 0, 0, 0, 0],
              [0, 0, 0, 0, 0, 0, 0]] }

/-- The "heal_corridor" level of the `maps` catalog. -/
def healCorridorLevel : LevelDef :=
  { startX := 0, startY := 1,
    winCondition := fun p => p.inventory.count "key" == 1,
    terrain := [[3, 3, 3, 3, 3, 3, 3],
                [4, 6, 6, 6, 6, 6, 3],
                [3, 3, 3, 3, 3, 6, 8],
                [3, 6, 6, 6, 6, 6, 3],
                [8, 6, 3, 3, 3, 3, 3],
                [3, 6, 6, 6, 6, 8, 3],
                [3, 3, 3, 3, 3, 3, 3]],
    items := [[0, 0, 0, 0, 0, 0, 0],
              [0, 0, 0, 0, 0, 0, 0],
              [0, 0, 0, 0, 0, 0, 0],
              [0, 0, 0, 0, 0, 0, 0],
              [0, 0, 0, 0, 0, 0, 0],
              [0, 0, 0, 0, 0, 1, 0],
              [0, 0, 0, 0, 0, 0, 0]] }

/-- The shipped `maps` dictionary, as a name lookup. -/
def mapsCatalog (name : String) : Option LevelDef :=
  if name = "demo" then some demoLevel
  else if name = "quicksand" then some quicksandLevel
  else if name = "teleport_across" then some teleportAcrossLevel
  else if name = "sludge_lavafields" then some sludgeLavafieldsLevel
  else if name = "heal_corridor" then some healCorridorLevel
  else none

/-- `Player.start_level`: set the position to the level's declared start,
reset health to 100, currency to 0 and the inventory to empty (hydration and
the game-over flag are not touched), then rebuild the `Map` from the
template.  `choose_level` guarantees the name is in the catalog. -/
def startLevel (name : String) (s : GState) : Option GState :=
  match mapsCatalog name with
  | none => none
  | some lvl =>
    match buildMap lvl lvl.startX lvl.startY with
    | none => none
    | some bs =>
      some { s with
             chosenLevel := some name,
             x := lvl.startX, y := lvl.startY,
             health := 100, currency := 0, inventory := [],
             map := { winCondition := lvl.winCondition, blocks := bs } }

/-- `Player.take_turn(dir)`.  If the game is over, the call is a reset:
`choose_level` (an interactive prompt, modelled by the `levelChoice`
argument) picks a catalog level, `start_level` rebuilds everything, the
game-over flag is cleared, and the call returns with no movement.  Otherwise
the origin block's `can_leave` is consulted (an early bare `return` skips
even the end-of-turn checks when it refuses), the movement phase runs, and
the end-of-turn checks follow. -/
def takeTurn (dir levelChoice : String) (s : GState) : Option GState :=
  if s.gameOver then
    match startLevel levelChoice s with
    | none => none
    | some s1 => some { s1 with gameOver := false }
  else
    match get2 s.map.blocks s.y s.x with
    | none => none
    | some cur =>
      if tileCanLeave cur.tiletype then
        match doMove dir s with
        | none => none
        | some s1 => some (terminalChecks s1)
      else some s

/-- Variant of `takeTurn` built on `terminalChecksND`, used to state that the
dehydration branch is dead on reachable states. -/
def takeTurnNoDecay (dir levelChoice : String) (s : GState) : Option GState :=
  if s.gameOver then
    match startLevel levelChoice s with
    | none => none
    | some s1 => some { s1 with gameOver := false }
  else
    match get2 s.map.blocks s.y s.x with
    | none => none
    | some cur =>
      if tileCanLeave cur.tiletype then
        match doMove dir s with
        | none => none
        | some s1 => some (terminalChecksND s1)
      else some s

/-- A freshly constructed `Player` object, before `start_level` runs: the
class-attribute defaults of the source. -/
def freshPlayer : GState :=
  { health := 100, currency := 0, hydration := 100, inventory := [],
    x := 0, y := 0, gameOver := false, chosenLevel := none,
    map := { winCondition := fun _ => false, blocks := [] } }

/-- States the shipped game can be in: `setup` creates a fresh player and
starts a chosen catalog level; every further state is produced by a
successful `take_turn` (the direction string is arbitrary, the level choice
consulted on reset must come from the catalog for `take_turn` to succeed). -/
inductive Reachable : GState → Prop where
  | init (name : String) (s : GState) :
      startLevel name freshPlayer = some s → Reachable s
  | step (dir name : String) (s s' : GState) :
      Reachable s → takeTurn dir name s = some s' → Reachable s'

/-- Neither tile `enter` callback touches the inventory. -/
lemma tileEnter_inventory (t : Tile) (p : PView) :
    (tileEnter t p).inventory = p.inventory := by
  cases t <;> rfl

/-- Neither tile `enter` callback touches the position fields. -/
lemma tileEnter_xy (t : Tile) (p : PView) :
    (tileEnter t p).x = p.x ∧ (tileEnter t p).y = p.y := by
  cases t <;> exact ⟨rfl, rfl⟩

/-- `Water.enter` leaves hydration at 100; every other tile keeps it. -/
lemma tileEnter_hydration (t : Tile) (p : PView) :
    (tileEnter t p).hydration = p.hydration ∨ (tileEnter t p).hydration = 100 := by
  cases t <;> simp [tileEnter]

/-- The end-of-turn checks only write `health` and `gameOver`. -/
lemma terminalChecks_frame (s : GState) :
    (terminalChecks s).x = s.x ∧ (terminalChecks s).y = s.y ∧
    (terminalChecks s).map = s.map ∧
    (terminalChecks s).hydration = s.hydration ∧
    (terminalChecks s).inventory = s.inventory ∧
    (terminalChecks s).currency = s.currency := by
  unfold terminalChecks
  by_cases h1 : s.health ≤ 0 <;> by_cases h2 : s.hydration < 10 <;>
    simp only [h1, h2, if_true, if_false, ite_true, ite_false] <;>
    split <;> simp

/-- Case analysis on the movement phase: either nothing moved and the state is
returned unchanged, or the bounds test and the destination's `can_enter`
passed and the state is the leave/enter/position update of the source. -/
lemma doMove_spec (dir : String) (s s1 : GState) (h : doMove dir s = some s1) :
    s1 = s ∨
    ∃ dest cur dest1 row0,
      get2 s.map.blocks (newCoords dir s.x s.y).2 (newCoords dir s.x s.y).1 = some dest ∧
      tileCanEnter dest.tiletype s.inventory = true ∧
      get2 s.map.blocks s.y s.x = some cur ∧
      get2 (set2 s.map.blocks s.y s.x (blockLeave cur)) (newCoords dir s.x s.y).2
        (newCoords dir s.x s.y).1 = some dest1 ∧
      pyGet s.map.blocks 0 = some row0 ∧
      (-1 : Int) < (newCoords dir s.x s.y).1 ∧
      (newCoords dir s.x s.y).1 < (s.map.blocks.length : Int) ∧
      (-1 : Int) < (newCoords dir s.x s.y).2 ∧
      (newCoords dir s.x s.y).2 < (row0.length : Int) ∧
      s1 = { s with
             map := { s.map with
                      blocks := set2 (set2 s.map.blocks s.y s.x (blockLeave cur))
                        (newCoords dir s.x s.y).2 (newCoords dir s.x s.y).1
                        (blockEnter dest1 (pview s)).1 },
             health := (blockEnter dest1 (pview s)).2.health,
             currency := (blockEnter dest1 (pview s)).2.currency,
             hydration := (blockEnter dest1 (pview s)).2.hydration,
             inventory := (blockEnter dest1 (pview s)).2.inventory,
             x := (newCoords dir s.x s.y).1, y := (newCoords dir s.x s.y).2 } := by
  unfold doMove at h
  by_cases hbx : (-1 : Int) < (newCoords dir s.x s.y).1 ∧
      (newCoords dir s.x s.y).1 < (s.map.blocks.length : Int)
  · simp only [hbx, and_self, if_true, ite_true] at h
    rcases hrow0 : pyGet s.map.blocks 0 with _ | row0 <;> rw [hrow0] at h <;>
      (try dsimp only at h)
    · exact absurd h (by simp)
    · by_cases hby : (-1 : Int) < (newCoords dir s.x s.y).2 ∧
          (newCoords dir s.x s.y).2 < (row0.length : Int)
      · simp only [hby, and_self, if_true, ite_true] at h
        rcases hdest : get2 s.map.blocks (newCoords dir s.x s.y).2
            (newCoords dir s.x s.y).1 with _ | dest <;> rw [hdest] at h <;>
          (try dsimp only at h)
        · exact absurd h (by simp)
        · by_cases hce : tileCanEnter dest.tiletype s.inventory = true
          · rw [if_pos hce] at h
            rcases hcur : get2 s.map.blocks s.y s.x with _ | cur <;> rw [hcur] at h <;>
              (try dsimp only at h)
            · exact absurd h (by simp)
            · rcases hdest1 : get2 (set2 s.map.blocks s.y s.x (blockLeave cur))
                  (newCoords dir s.x s.y).2 (newCoords dir s.x s.y).1 with _ | dest1 <;>
                rw [hdest1] at h <;> (try dsimp only at h)
              · exact absurd h (by simp)
              · right
                refine ⟨dest, cur, dest1, row0, ?_, hce, ?_, ?_, ?_,
                  hbx.1, hbx.2, hby.1, hby.2, ?_⟩ <;>
                  first
                    | rfl
                    | exact hdest
                    | exact hcur
                    | exact hdest1
                    | exact hrow0
                    | exact (Option.some_inj.mp h).symm
          · rw [if_neg hce] at h
            left; exact (Option.some_inj.mp h).symm
      · rw [if_neg hby] at h
        left; exact (Option.some_inj.mp h).symm
  · rw [if_neg hbx] at h
    left; exact (Option.some_inj.mp h).symm

/-- Unfolding of a successful non-reset `take_turn`: the origin block exists,
its `can_leave` is consulted, and the result is the movement phase followed by
the end-of-turn checks. -/
lemma takeTurn_not_over (dir lvl : String) (s s' : GState)
    (hgo : s.gameOver = false) (h : takeTurn dir lvl s = some s') :
    ∃ cur s1, get2 s.map.blocks s.y s.x = some cur ∧
      doMove dir s = some s1 ∧ s' = terminalChecks s1 := by
  unfold takeTurn at h
  rw [hgo] at h
  simp only [Bool.false_eq_true, if_false, ite_false] at h
  rcases hcur : get2 s.map.blocks s.y s.x with _ | cur <;> rw [hcur] at h <;>
    (try dsimp only at h)
  · exact absurd h (by simp)
  · rw [tileCanLeave, if_pos rfl] at h
    rcases hs1 : doMove dir s with _ | s1 <;> rw [hs1] at h <;> (try dsimp only at h)
    · exact absurd h (by simp)
    · exact ⟨cur, s1, rfl, rfl, (Option.some_inj.mp h).symm⟩

/-- A test block with the given tile, item, coordinates and player flag. -/
def testBlock (t : Tile) (it : Option ItemKind) (x y : Int) (hp : Bool) : Block :=
  { tiletype := t, item := it, x := x, y := y, hasPlayer := hp }

/-- A playing-state over the given grid with the player at `(x, y)` and the
class-default player stats. -/
def testState (bs : List (List Block)) (x y : Int) : GState :=
  { health := 100, currency := 0, hydration := 100, inventory := [],
    x := x, y := y, gameOver := false, chosenLevel := none,
    map := { winCondition := fun _ => false, blocks := bs } }

/-- A one-column, two-row grid of grass with the player at (0, 0): the
smallest grid on which the asymmetric bounds check admits an off-grid x. -/
def c1State : GState :=
  testState [[testBlock Tile.grass none 0 0 true],
             [testBlock Tile.grass none 0 1 false]] 0 0

/-- C1: moving right from (0, 0) on a 1-wide, 2-tall grid makes the candidate
x equal the grid width 1, yet `new_x < len(blocks)` compares it against the
row count 2 and passes, and `new_y < len(blocks[0])` passes as well, so the
turn indexes `blocks[0][1]` and raises IndexError (modelled `none`) instead
of completing as a no-op: the claimed clean boundary behavior fails on
non-square grids. -/
theorem takeTurn_offgrid_crash : takeTurn "right" "demo" c1State = none := rfl

/-- A single-cell grid holding Sludge with the player standing on it. -/
def c2State : GState :=
  testState [[testBlock Tile.sludge none 0 0 true]] 0 0

/-- C2 counterexample: the direction token "xyz" is not one of up, down,
left, right, yet `take_turn` re-enters the player's own Sludge block (the
candidate destination defaults to the current cell, which passes the bounds
and `can_enter` tests), so the Sludge `enter` callback runs and health drops
from 100 to 92 — the claim that no enter/leave callback runs and the
movement phase changes nothing is false. -/
theorem invalidDir_side_effect_cex :
    (takeTurn "xyz" "demo" c2State).map GState.health = some 92 ∧
    c2State.health = 100 :=
  ⟨rfl, rfl⟩

/-- C2 amended: an unrecognized direction token never changes the player's
position (the self-move writes back the same coordinates), though the origin
block's leave/enter callbacks may run. -/
theorem invalidDir_position_unchanged (dir lvl : String) (s s' : GState)
    (h1 : dir ≠ "left") (h2 : dir ≠ "right") (h3 : dir ≠ "up") (h4 : dir ≠ "down")
    (hgo : s.gameOver = false) (h : takeTurn dir lvl s = some s') :
    s'.x = s.x ∧ s'.y = s.y := by
  obtain ⟨cur, s1, hcur, hmv, hs'⟩ := takeTurn_not_over dir lvl s s' hgo h
  have hnc : newCoords dir s.x s.y = (s.x, s.y) := by
    simp [newCoords, h1, h2, h3, h4]
  obtain h0 | ⟨dest, cur', dest1, row0, _, _, _, _, _, _, _, _, _, hmov⟩ :=
    doMove_spec dir s s1 hmv
  · rw [hs', h0]
    exact ⟨(terminalChecks_frame s).1, (terminalChecks_frame s).2.1⟩
  · subst hs'
    constructor
    · rw [(terminalChecks_frame s1).1, hmov]; simp [hnc]
    · rw [(terminalChecks_frame s1).2.1, hmov]; simp [hnc]

/-- Closed instance of `invalidDir_position_unchanged` at a concrete state. -/
theorem invalidDir_position_unchanged_witness :
    ((takeTurn "xyz" "demo" c2State).getD c2State).x = c2State.x ∧
    ((takeTurn "xyz" "demo" c2State).getD c2State).y = c2State.y :=
  invalidDir_position_unchanged "xyz" "demo" c2State
    ((takeTurn "xyz" "demo" c2State).getD c2State)
    (by decide) (by decide) (by decide) (by decide) rfl rfl

/-- A single grass cell with the player on it, health already 0 and hydration
5: both the loss check and the dehydration check will fire this turn. -/
def c3State : GState :=
  { testState [[testBlock Tile.grass none 0 0 true]] 0 0 with
    health := 0, hydration := 5 }

/-- C3 counterexample: with health 0 and hydration 5, the turn transitions to
game over AND still applies the dehydration decay (health ends at -2, not 0):
the source uses three independent `if` statements, not an `else if`, so the
loss does not suppress that turn's decay as the claim states. -/
theorem decay_after_loss_cex :
    (takeTurn "up" "demo" c3State).map GState.health = some (-2) ∧
    (takeTurn "up" "demo" c3State).map GState.gameOver = some true ∧
    c3State.health = 0 ∧ c3State.hydration = 5 :=
  ⟨rfl, rfl, rfl, rfl⟩

/-- C3 amended: a successful non-reset turn ends with the end-of-turn checks
in the fixed source order — loss on health ≤ 0, then dehydration decay, then
the win predicate evaluated on the post-decay player state of the same turn —
but the decay applies whenever hydration < 10, independently of whether the
loss already triggered. -/
theorem terminal_order_amended (dir lvl : String) (s : GState) (cur : Block)
    (sm : GState) (hgo : s.gameOver = false)
    (hcur : get2 s.map.blocks s.y s.x = some cur)
    (hmv : doMove dir s = some sm) :
    takeTurn dir lvl s = some (terminalChecks sm) ∧
    (terminalChecks sm).health = sm.health - (if sm.hydration < 10 then 2 else 0) ∧
    (terminalChecks sm).gameOver =
      ((sm.gameOver || decide (sm.health ≤ 0)) ||
        sm.map.winCondition
          { pview sm with health := sm.health - (if sm.hydration < 10 then 2 else 0) }) ∧
    (terminalChecks sm).hydration = sm.hydration ∧
    (terminalChecks sm).x = sm.x ∧ (terminalChecks sm).y = sm.y := by
  refine ⟨?_, ?_, ?_, (terminalChecks_frame sm).2.2.2.1,
    (terminalChecks_frame sm).1, (terminalChecks_frame sm).2.1⟩
  · simp only [takeTurn, hgo, Bool.false_eq_true, if_false, ite_false, hcur,
      tileCanLeave, if_true, ite_true, hmv]
  · unfold terminalChecks
    by_cases hl : sm.health ≤ 0 <;> by_cases hd : sm.hydration < 10 <;>
      simp only [hl, hd, if_true, if_false, ite_true, ite_false] <;>
      split <;> simp
  · unfold terminalChecks
    by_cases hl : sm.health ≤ 0 <;> by_cases hd : sm.hydration < 10 <;>
      simp only [hl, hd, if_true, if_false, ite_true, ite_false] <;>
      split <;> simp_all [pview]

/-- Closed instance of `terminal_order_amended` at a concrete state. -/
theorem terminal_order_amended_witness :
    takeTurn "up" "demo" c3State = some (terminalChecks c3State) ∧
    (terminalChecks c3State).health =
      c3State.health - (if c3State.hydration < 10 then 2 else 0) ∧
    (terminalChecks c3State).gameOver =
      ((c3State.gameOver || decide (c3State.health ≤ 0)) ||
        c3State.map.winCondition
          { pview c3State with
            health := c3State.health - (if c3State.hydration < 10 then 2 else 0) }) ∧
    (terminalChecks c3State).hydration = c3State.hydration ∧
    (terminalChecks c3State).x = c3State.x ∧ (terminalChecks c3State).y = c3State.y :=
  terminal_order_amended "up" "demo" c3State (testBlock Tile.grass none 0 0 true)
    c3State rfl rfl rfl

/-- C5: entering an Ice tile runs the inherited no-op `enter` (no player field
changes); `Block.enter` never replaces the tile; `Block.leave` on an Ice block
swaps the tile for Water; and leaving the resulting Water block on any later
turn keeps Water and only clears the player flag (no revert, no re-trigger). -/
theorem ice_melts_on_exit (b : Block) (p : PView) (hb : b.tiletype = Tile.ice) :
    tileEnter b.tiletype p = p ∧
    (blockEnter b p).1.tiletype = b.tiletype ∧
    (blockLeave b).tiletype = Tile.water ∧
    (∀ b' : Block, b'.tiletype = Tile.water →
      blockLeave b' = { b' with hasPlayer := false }) := by
  refine ⟨by rw [hb]; rfl, ?_, by simp [blockLeave, hb], ?_⟩
  · cases hi : b.item with
    | none => simp [blockEnter, hi]
    | some k => cases k; simp [blockEnter, hi]
  · intro b' hb'
    simp [blockLeave, hb']

/-- Closed instance of `ice_melts_on_exit` at a concrete Ice block. -/
theorem ice_melts_on_exit_witness :
    tileEnter (testBlock Tile.ice none 0 0 false).tiletype
      { health := 100, currency := 0, hydration := 100, inventory := [],
        x := 0, y := 0 } =
      { health := 100, currency := 0, hydration := 100, inventory := [],
        x := 0, y := 0 } ∧
    (blockEnter (testBlock Tile.ice none 0 0 false)
      { health := 100, currency := 0, hydration := 100, inventory := [],
        x := 0, y := 0 }).1.tiletype = (testBlock Tile.ice none 0 0 false).tiletype ∧
    (blockLeave (testBlock Tile.ice none 0 0 false)).tiletype = Tile.water ∧
    blockLeave (testBlock Tile.water none 0 0 false) =
      { testBlock Tile.water none 0 0 false with hasPlayer := false } := by
  have h := ice_melts_on_exit (testBlock Tile.ice none 0 0 false)
    { health := 100, currency := 0, hydration := 100, inventory := [],
      x := 0, y := 0 } rfl
  exact ⟨h.1, h.2.1, h.2.2.1, h.2.2.2 (testBlock Tile.water none 0 0 false) rfl⟩

/-- C6: `Water.can_enter` holds exactly when the inventory contains
"flippers", and `Water.enter` sets hydration to 100 whatever it was. -/
theorem water_canEnter_and_hydration (p : PView) :
    (tileCanEnter Tile.water p.inventory = true ↔ "flippers" ∈ p.inventory) ∧
    tileEnter Tile.water p = { p with hydration := 100 } :=
  ⟨by simp [tileCanEnter, hasItem], rfl⟩

/-- C7: entering a block holding a Key appends exactly one "key" to the
inventory and clears the block's item, and entering the resulting block again
adds nothing further. -/
theorem key_pickup_once (b : Block) (p q : PView) (hb : b.item = some ItemKind.key) :
    (blockEnter b p).2.inventory = p.inventory ++ ["key"] ∧
    (blockEnter b p).1.item = none ∧
    (blockEnter (blockEnter b p).1 q).2.inventory = q.inventory := by
  refine ⟨?_, ?_, ?_⟩ <;> simp [blockEnter, hb, tileEnter_inventory]

/-- Closed instance of `key_pickup_once` at a concrete Key block. -/
theorem key_pickup_once_witness :
    (blockEnter (testBlock Tile.grass (some ItemKind.key) 0 0 false)
      { health := 100, currency := 0, hydration := 100, inventory := ["key"],
        x := 0, y := 0 }).2.inventory = ["key"] ++ ["key"] ∧
    (blockEnter (testBlock Tile.grass (some ItemKind.key) 0 0 false)
      { health := 100, currency := 0, hydration := 100, inventory := ["key"],
        x := 0, y := 0 }).1.item = none ∧
    (blockEnter (blockEnter (testBlock Tile.grass (some ItemKind.key) 0 0 false)
      { health := 100, currency := 0, hydration := 100, inventory := ["key"],
        x := 0, y := 0 }).1
      { health := 50, currency := 0, hydration := 100, inventory := ["key", "key"],
        x := 0, y := 0 }).2.inventory = ["key", "key"] :=
  key_pickup_once (testBlock Tile.grass (some ItemKind.key) 0 0 false)
    { health := 100, currency := 0, hydration := 100, inventory := ["key"],
      x := 0, y := 0 }
    { health := 50, currency := 0, hydration := 100, inventory := ["key", "key"],
      x := 0, y := 0 } rfl

/-- C8: when the candidate destination block's tile is Rock (whose
`can_enter` is false), a completed turn leaves the player's position and the
whole grid unchanged — in particular `leave` never runs on the origin block,
so no exit side effect fires. -/
theorem rock_blocks_move (dir lvl : String) (s s' : GState) (d : Block)
    (hgo : s.gameOver = false)
    (hdest : get2 s.map.blocks (newCoords dir s.x s.y).2 (newCoords dir s.x s.y).1 =
      some d)
    (hrock : d.tiletype = Tile.rock)
    (h : takeTurn dir lvl s = some s') :
    s'.x = s.x ∧ s'.y = s.y ∧ s'.map.blocks = s.map.blocks := by
  obtain ⟨cur, s1, hcur, hmv, hs'⟩ := takeTurn_not_over dir lvl s s' hgo h
  obtain h0 | ⟨dest, cur', dest1, row0, hdest', hce, _, _, _, _, _, _, _, _⟩ :=
    doMove_spec dir s s1 hmv
  · rw [hs', h0]
    have hf := terminalChecks_frame s
    exact ⟨hf.1, hf.2.1, by rw [hf.2.2.1]⟩
  · rw [hdest'] at hdest
    have hd : dest = d := Option.some_inj.mp hdest
    rw [hd, hrock] at hce
    simp [tileCanEnter] at hce

/-- A 2-by-2 grid with a Rock to the right of the player. -/
def c8State : GState :=
  testState [[testBlock Tile.grass none 0 0 true, testBlock Tile.rock none 1 0 false],
             [testBlock Tile.grass none 0 1 false, testBlock Tile.grass none 1 1 false]]
    0 0

/-- Closed instance of `rock_blocks_move` at a concrete state. -/
theorem rock_blocks_move_witness :
    ((takeTurn "right" "demo" c8State).getD c8State).x = c8State.x ∧
    ((takeTurn "right" "demo" c8State).getD c8State).y = c8State.y ∧
    ((takeTurn "right" "demo" c8State).getD c8State).map.blocks = c8State.map.blocks :=
  rock_blocks_move "right" "demo" c8State
    ((takeTurn "right" "demo" c8State).getD c8State)
    (testBlock Tile.rock none 1 0 false) rfl rfl rfl rfl

/-- `Block.enter` keeps a full hydration full: the tile callback either keeps
hydration or sets it to 100, and the item callback never touches it. -/
lemma blockEnter_hydration (b : Block) (p : PView) (h : p.hydration = 100) :
    (blockEnter b p).2.hydration = 100 := by
  have ht := tileEnter_hydration b.tiletype p
  cases hi : b.item with
  | none => simp only [blockEnter, hi]; rcases ht with h1 | h1 <;> simp [h1, h]
  | some k =>
    cases k
    simp only [blockEnter, hi]
    rcases ht with h1 | h1 <;> simp [h1, h]

/-- `start_level` resets health, currency and inventory but carries hydration
and the game-over flag over unchanged. -/
lemma startLevel_fields (name : String) (s s' : GState)
    (h : startLevel name s = some s') :
    s'.hydration = s.hydration ∧ s'.gameOver = s.gameOver ∧
    s'.health = 100 ∧ s'.inventory = [] := by
  unfold startLevel at h
  rcases hname : mapsCatalog name with _ | lvl <;> rw [hname] at h <;>
    (try dsimp only at h)
  · exact absurd h (by simp)
  · rcases hbm : buildMap lvl lvl.startX lvl.startY with _ | bs <;> rw [hbm] at h <;>
      (try dsimp only at h)
    · exact absurd h (by simp)
    · have hs' := (Option.some_inj.mp h).symm
      subst hs'
      exact ⟨rfl, rfl, rfl, rfl⟩

/-- The movement phase keeps a full hydration full. -/
lemma doMove_hydration (dir : String) (s s1 : GState) (h100 : s.hydration = 100)
    (h : doMove dir s = some s1) : s1.hydration = 100 := by
  obtain h0 | ⟨dest, cur, dest1, row0, _, _, _, _, _, _, _, _, _, hmov⟩ :=
    doMove_spec dir s s1 h
  · rw [h0]; exact h100
  · rw [hmov]
    exact blockEnter_hydration dest1 (pview s) h100

/-- A successful `take_turn` keeps a full hydration full. -/
lemma takeTurn_hydration (dir name : String) (s s' : GState)
    (h100 : s.hydration = 100) (h : takeTurn dir name s = some s') :
    s'.hydration = 100 := by
  by_cases hgo : s.gameOver = true
  · unfold takeTurn at h
    rw [if_pos hgo] at h
    rcases hsl : startLevel name s with _ | s1 <;> rw [hsl] at h <;>
      (try dsimp only at h)
    · exact absurd h (by simp)
    · have hs' := (Option.some_inj.mp h).symm
      subst hs'
      show s1.hydration = 100
      rw [(startLevel_fields name s s1 hsl).1]; exact h100
  · have hgo' : s.gameOver = false := by revert hgo; cases s.gameOver <;> simp
    obtain ⟨cur, s1, hcur, hmv, hs'⟩ := takeTurn_not_over dir name s s' hgo' h
    rw [hs', (terminalChecks_frame s1).2.2.2.1]
    exact doMove_hydration dir s s1 h100 hmv

/-- Hydration is 100 in every reachable state: it starts at 100 and the only
write to it (Water entry) writes 100. -/
lemma reachable_hydration (s : GState) (h : Reachable s) : s.hydration = 100 := by
  induction h with
  | init name t ht => exact (startLevel_fields name freshPlayer t ht).1
  | step dir name t t' _ hstep ih => exact takeTurn_hydration dir name t t' ih hstep

/-- With full hydration, the dehydration branch of the end-of-turn checks is
dead. -/
lemma terminalChecks_eq_noDecay (s : GState) (h100 : s.hydration = 100) :
    terminalChecks s = terminalChecksND s := by
  unfold terminalChecks terminalChecksND
  by_cases hl : s.health ≤ 0 <;> simp [hl, h100]

/-- With full hydration, `take_turn` and its decay-free variant agree. -/
lemma takeTurn_eq_noDecay (dir name : String) (s : GState) (h100 : s.hydration = 100) :
    takeTurn dir name s = takeTurnNoDecay dir name s := by
  unfold takeTurn takeTurnNoDecay
  by_cases hgo : s.gameOver = true
  · rw [if_pos hgo, if_pos hgo]
  · rw [if_neg hgo, if_neg hgo]
    rcases hcur : get2 s.map.blocks s.y s.x with _ | cur <;> simp only [hcur]
    rw [tileCanLeave]
    simp only [if_true, ite_true]
    rcases hmv : doMove dir s with _ | s1 <;> simp only [hmv]
    rw [terminalChecks_eq_noDecay s1 (doMove_hydration dir s s1 h100 hmv)]

/-- The demo level freshly started, as built by `setup`. -/
def demoInit : GState := (startLevel "demo" freshPlayer).getD freshPlayer

/-- C10: in every reachable state of the shipped catalog, hydration equals
100, and consequently `take_turn` coincides with the variant whose
dehydration branch has been deleted: the decay is dead code in every
reachable run. -/
theorem hydration_always_full (s : GState) (h : Reachable s) :
    s.hydration = 100 ∧
    ∀ dir name, takeTurn dir name s = takeTurnNoDecay dir name s :=
  ⟨reachable_hydration s h,
   fun dir name => takeTurn_eq_noDecay dir name s (reachable_hydration s h)⟩

/-- Closed instance of `hydration_always_full` at the freshly started demo
level. -/
theorem hydration_always_full_witness :
    demoInit.hydration = 100 ∧
    takeTurn "up" "demo" demoInit = takeTurnNoDecay "up" "demo" demoInit := by
  have h := hydration_always_full demoInit (Reachable.init "demo" demoInit rfl)
  exact ⟨h.1, h.2 "up" "demo"⟩

/-- C4: for a reachable game-over state, the next `take_turn` is a reset: no
movement, and the player's health, hydration and inventory and position are
exactly the chosen level's declared start values, with the grid freshly
rebuilt from the level template (so tile mutations of the previous attempt
are gone). -/
theorem reset_restores_level_start (dir name : String) (lvl : LevelDef)
    (s s' : GState) (hr : Reachable s) (hgo : s.gameOver = true)
    (hname : mapsCatalog name = some lvl)
    (h : takeTurn dir name s = some s') :
    s'.health = 100 ∧ s'.hydration = 100 ∧ s'.inventory = [] ∧
    s'.x = lvl.startX ∧ s'.y = lvl.startY ∧ s'.gameOver = false ∧
    buildMap lvl lvl.startX lvl.startY = some s'.map.blocks := by
  unfold takeTurn at h
  rw [if_pos hgo] at h
  unfold startLevel at h
  rw [hname] at h
  dsimp only at h
  rcases hbm : buildMap lvl lvl.startX lvl.startY with _ | bs <;> rw [hbm] at h <;>
    (try dsimp only at h)
  · exact absurd h (by simp)
  · have hs' := (Option.some_inj.mp h).symm
    subst hs'
    refine ⟨rfl, ?_, rfl, rfl, rfl, rfl, rfl⟩
    exact reachable_hydration s hr

/-- One keyboard turn with the fixed reset level "demo". -/
def stepTurn (d : String) (s : GState) : GState :=
  (takeTurn d "demo" s).getD s

/-- The sludge_lavafields level freshly started. -/
def slInit : GState := (startLevel "sludge_lavafields" freshPlayer).getD freshPlayer

/-- A concrete losing run on sludge_lavafields: step left onto Sludge once,
then issue the unrecognized token "q" twelve times, re-entering the Sludge
cell each turn for 8 damage, ending at health -4 and game over. -/
def slRun : Nat → GState
  | 0 => stepTurn "left" slInit
  | n + 1 => stepTurn "q" (slRun n)

/-- Every state of the losing run is reachable. -/
lemma slRun_reachable : Reachable (slRun 12) := by
  have g0 : Reachable slInit := Reachable.init "sludge_lavafields" slInit rfl
  have g1 : Reachable (slRun 0) := Reachable.step "left" "demo" _ _ g0 rfl
  have g2 : Reachable (slRun 1) := Reachable.step "q" "demo" _ _ g1 rfl
  have g3 : Reachable (slRun 2) := Reachable.step "q" "demo" _ _ g2 rfl
  have g4 : Reachable (slRun 3) := Reachable.step "q" "demo" _ _ g3 rfl
  have g5 : Reachable (slRun 4) := Reachable.step "q" "demo" _ _ g4 rfl
  have g6 : Reachable (slRun 5) := Reachable.step "q" "demo" _ _ g5 rfl
  have g7 : Reachable (slRun 6) := Reachable.step "q" "demo" _ _ g6 rfl
  have g8 : Reachable (slRun 7) := Reachable.step "q" "demo" _ _ g7 rfl
  have g9 : Reachable (slRun 8) := Reachable.step "q" "demo" _ _ g8 rfl
  have g10 : Reachable (slRun 9) := Reachable.step "q" "demo" _ _ g9 rfl
  have g11 : Reachable (slRun 10) := Reachable.step "q" "demo" _ _ g10 rfl
  have g12 : Reachable (slRun 11) := Reachable.step "q" "demo" _ _ g11 rfl
  exact Reachable.step "q" "demo" _ _ g12 rfl

/-- The state produced by the reset turn issued after the losing run. -/
def resetAfter : GState := (takeTurn "up" "demo" (slRun 12)).getD (slRun 12)

/-- Closed instance of `reset_restores_level_start`: after the concrete
losing run, the reset turn restores the demo level's start values. -/
theorem reset_restores_level_start_witness :
    resetAfter.health = 100 ∧ resetAfter.hydration = 100 ∧
    resetAfter.inventory = [] ∧
    resetAfter.x = demoLevel.startX ∧ resetAfter.y = demoLevel.startY ∧
    resetAfter.gameOver = false ∧
    buildMap demoLevel demoLevel.startX demoLevel.startY =
      some resetAfter.map.blocks :=
  reset_restores_level_start "up" "demo" demoLevel (slRun 12) resetAfter
    slRun_reachable rfl rfl rfl

/-- At a non-negative index, Python indexing is plain list indexing. -/
lemma pyGet_nonneg {α : Type} (l : List α) (i : Int) (h : 0 ≤ i) :
    pyGet l i = l[i.toNat]? := by
  unfold pyGet; rw [if_pos h]

/-- At a non-negative index, Python assignment is plain `List.set`. -/
lemma pySet_nonneg {α : Type} (l : List α) (i : Int) (a : α) (h : 0 ≤ i) :
    pySet l i a = l.set i.toNat a := by
  unfold pySet; rw [if_pos h]

/-- Whatever branch runs, a successful Python read returns a list member. -/
lemma pyGet_mem {α : Type} (l : List α) (i : Int) (a : α) (h : pyGet l i = some a) :
    a ∈ l := by
  simp only [pyGet] at h
  split_ifs at h
  · rw [List.getElem?_eq_some] at h
    obtain ⟨hl, rfl⟩ := h
    exact List.getElem_mem hl
  · rw [List.getElem?_eq_some] at h
    obtain ⟨hl, rfl⟩ := h
    exact List.getElem_mem hl

/-- Python assignment never changes the list length. -/
lemma pySet_length {α : Type} (l : List α) (i : Int) (a : α) :
    (pySet l i a).length = l.length := by
  simp only [pySet]
  split_ifs <;> simp [List.length_set]

/-- An element of a Python-assigned list is an old element or the new value. -/
lemma pySet_mem {α : Type} (l : List α) (i : Int) (a x : α)
    (h : x ∈ pySet l i a) : x ∈ l ∨ x = a := by
  simp only [pySet] at h
  split_ifs at h
  · exact List.mem_or_eq_of_mem_set h
  · exact List.mem_or_eq_of_mem_set h
  · exact Or.inl h

/-- `set2` never changes the number of rows. -/
lemma set2_length (bs : List (List Block)) (yi xi : Int) (b : Block) :
    (set2 bs yi xi b).length = bs.length := by
  unfold set2
  rcases h : pyGet bs yi with _ | row
  · rfl
  · rw [pySet_length]

/-- `set2` keeps all rows at their previous lengths when the grid is
rectangular. -/
lemma set2_square (bs : List (List Block)) (yi xi : Int) (b : Block)
    (hsq : ∀ row ∈ bs, row.length = bs.length) :
    ∀ row ∈ set2 bs yi xi b, row.length = (set2 bs yi xi b).length := by
  rw [set2_length]
  intro row hrow
  unfold set2 at hrow
  rcases h : pyGet bs yi with _ | row1 <;> rw [h] at hrow <;> (try dsimp only at hrow)
  · exact hsq row hrow
  · rcases pySet_mem bs yi (pySet row1 xi b) row hrow with hm | he
    · exact hsq row hm
    · rw [he, pySet_length]
      exact hsq row1 (pyGet_mem bs yi row1 h)

/-- Reading `set2` back at a different slot returns the old block. -/
lemma get2N_set2_ne (bs : List (List Block)) (y x : Int) (b : Block)
    (hy : 0 ≤ y) (hx : 0 ≤ x) (yi xi : Nat)
    (hne : ¬(yi = y.toNat ∧ xi = x.toNat)) :
    get2N (set2 bs y x b) yi xi = get2N bs yi xi := by
  unfold set2
  rcases h : pyGet bs y with _ | row
  · rfl
  · dsimp only
    rw [pySet_nonneg _ _ _ hy, pySet_nonneg _ _ _ hx]
    unfold get2N
    by_cases hyy : yi = y.toNat
    · subst hyy
      have hxx : xi ≠ x.toNat := fun hc => hne ⟨rfl, hc⟩
      rw [pyGet_nonneg _ _ hy] at h
      have hlt : y.toNat < bs.length := by
        rw [List.getElem?_eq_some] at h
        exact h.1
      rw [List.getElem?_set_self hlt, h]
      dsimp only
      rw [List.getElem?_set_ne (Ne.symm hxx)]
    · rw [List.getElem?_set_ne (fun hc => hyy hc.symm)]

/-- Reading `set2` back at the written slot returns the new block, provided
that slot was in range. -/
lemma get2N_set2_self (bs : List (List Block)) (y x : Int) (b : Block)
    (hy : 0 ≤ y) (hx : 0 ≤ x) (b0 : Block)
    (hb0 : get2N bs y.toNat x.toNat = some b0) :
    get2N (set2 bs y x b) y.toNat x.toNat = some b := by
  unfold get2N at hb0
  rcases hrow : bs[y.toNat]? with _ | row <;> rw [hrow] at hb0
  · exact absurd hb0 (by simp)
  · dsimp only at hb0
    unfold set2
    rw [pyGet_nonneg _ _ hy, hrow]
    dsimp only
    rw [pySet_nonneg _ _ _ hy, pySet_nonneg _ _ _ hx]
    unfold get2N
    have hylt : y.toNat < bs.length := by
      rw [List.getElem?_eq_some] at hrow
      exact hrow.1
    have hxlt : x.toNat < row.length := by
      rw [List.getElem?_eq_some] at hb0
      exact hb0.1
    rw [List.getElem?_set_self hylt]
    dsimp only
    rw [List.getElem?_set_self hxlt]

/-- For non-negative indices, Python grid lookup is the Nat-indexed lookup. -/
lemma get2_eq_get2N (bs : List (List Block)) (yi xi : Int)
    (hy : 0 ≤ yi) (hx : 0 ≤ xi) :
    get2 bs yi xi = get2N bs yi.toNat xi.toNat := by
  unfold get2 get2N
  rw [pyGet_nonneg _ _ hy]
  rcases bs[yi.toNat]? with _ | row
  · rfl
  · exact pyGet_nonneg _ _ hx

/-- `Block.leave` keeps the cell coordinates. -/
lemma blockLeave_xy (b : Block) : (blockLeave b).x = b.x ∧ (blockLeave b).y = b.y := by
  unfold blockLeave
  rcases b.tiletype <;> exact ⟨rfl, rfl⟩

/-- `Block.leave` clears the player flag. -/
lemma blockLeave_hasPlayer (b : Block) : (blockLeave b).hasPlayer = false := by
  unfold blockLeave
  rcases b.tiletype <;> rfl

/-- `Block.enter` keeps the cell coordinates. -/
lemma blockEnter_xy (b : Block) (p : PView) :
    (blockEnter b p).1.x = b.x ∧ (blockEnter b p).1.y = b.y := by
  unfold blockEnter
  rcases b.item with _ | k
  · exact ⟨rfl, rfl⟩
  · cases k; exact ⟨rfl, rfl⟩

/-- A block built by `Map.__init__` carries its construction coordinates and
has the player flag set exactly at the player's start position. -/
lemma mkBlock_fields (lvl : LevelDef) (x y : Nat) (px py : Int) (b : Block)
    (h : mkBlock lvl x y px py = some b) :
    b.x = (x : Int) ∧ b.y = (y : Int) ∧
    (b.hasPlayer = true ↔ ((x : Int) = px ∧ (y : Int) = py)) := by
  unfold mkBlock at h
  rcases h1 : lvl.terrain[y]? with _ | trow <;> rw [h1] at h <;> (try dsimp only at h)
  · exact absurd h (by simp)
  rcases h2 : trow[x]? with _ | tcode <;> rw [h2] at h <;> (try dsimp only at h)
  · exact absurd h (by simp)
  rcases h3 : terrainOf tcode with _ | tile <;> rw [h3] at h <;> (try dsimp only at h)
  · exact absurd h (by simp)
  rcases h4 : lvl.items[y]? with _ | irow <;> rw [h4] at h <;> (try dsimp only at h)
  · exact absurd h (by simp)
  rcases h5 : irow[x]? with _ | icode <;> rw [h5] at h <;> (try dsimp only at h)
  · exact absurd h (by simp)
  rcases h6 : itemOf icode with _ | it <;> rw [h6] at h <;> (try dsimp only at h)
  · exact absurd h (by simp)
  obtain rfl := Option.some_inj.mp h
  exact ⟨rfl, rfl, by simp⟩

/-- Shape and contents of one built row. -/
lemma buildCells_get (lvl : LevelDef) (y : Nat) (px py : Int) (xs : List Nat) :
    ∀ l : List Block, buildCells lvl y px py xs = some l →
      l.length = xs.length ∧
      ∀ (i : Nat) (bl : Block), l[i]? = some bl →
        ∃ xv, xs[i]? = some xv ∧ mkBlock lvl xv y px py = some bl := by
  induction xs with
  | nil =>
    intro l h
    simp only [buildCells, Option.some_inj] at h
    subst h
    refine ⟨rfl, ?_⟩
    intro i bl hbl
    simp at hbl
  | cons x xs ih =>
    intro l h
    unfold buildCells at h
    rcases hb : mkBlock lvl x y px py with _ | b <;> rw [hb] at h <;>
      (try dsimp only at h)
    · exact absurd h (by simp)
    rcases hrest : buildCells lvl y px py xs with _ | rest <;> rw [hrest] at h <;>
      (try dsimp only at h)
    · exact absurd h (by simp)
    obtain rfl := Option.some_inj.mp h
    obtain ⟨hlen, hget⟩ := ih rest hrest
    refine ⟨by simp [hlen], ?_⟩
    intro i bl hbl
    cases i with
    | zero =>
      simp only [List.getElem?_cons_zero, Option.some_inj] at hbl
      subst hbl
      exact ⟨x, by simp, hb⟩
    | succ j =>
      simp only [List.getElem?_cons_succ] at hbl
      obtain ⟨xv, hxv, hmk⟩ := hget j bl hbl
      exact ⟨xv, by simpa using hxv, hmk⟩

/-- Shape and contents of the built row list. -/
lemma buildRows_get (lvl : LevelDef) (w : Nat) (px py : Int) (ys : List Nat) :
    ∀ rows : List (List Block), buildRows lvl w px py ys = some rows →
      rows.length = ys.length ∧
      ∀ (i : Nat) (row : List Block), rows[i]? = some row →
        ∃ yv, ys[i]? = some yv ∧
          buildCells lvl yv px py (List.range w) = some row := by
  induction ys with
  | nil =>
    intro rows h
    simp only [buildRows, Option.some_inj] at h
    subst h
    refine ⟨rfl, ?_⟩
    intro i row hrow
    simp at hrow
  | cons y ys ih =>
    intro rows h
    unfold buildRows at h
    rcases hrow : buildCells lvl y px py (List.range w) with _ | row <;> rw [hrow] at h <;>
      (try dsimp only at h)
    · exact absurd h (by simp)
    rcases hrest : buildRows lvl w px py ys with _ | rest <;> rw [hrest] at h <;>
      (try dsimp only at h)
    · exact absurd h (by simp)
    obtain rfl := Option.some_inj.mp h
    obtain ⟨hlen, hget⟩ := ih rest hrest
    refine ⟨by simp [hlen], ?_⟩
    intro i r hr
    cases i with
    | zero =>
      simp only [List.getElem?_cons_zero, Option.some_inj] at hr
      subst hr
      exact ⟨y, by simp, hrow⟩
    | succ j =>
      simp only [List.getElem?_cons_succ] at hr
      obtain ⟨yv, hyv, hcells⟩ := hget j r hr
      exact ⟨yv, by simpa using hyv, hcells⟩

/-- Shape and contents of a successfully built grid: height is the terrain
row count, every row has the width of the first terrain row, and each cell
carries its coordinates with the player flag exactly at the start cell. -/
lemma buildMap_get (lvl : LevelDef) (px py : Int) (bs : List (List Block))
    (h : buildMap lvl px py = some bs) :
    ∃ row0, lvl.terrain[0]? = some row0 ∧
      bs.length = lvl.terrain.length ∧
      (∀ row ∈ bs, row.length = row0.length) ∧
      ∀ (yi xi : Nat) (b : Block), get2N bs yi xi = some b →
        b.x = (xi : Int) ∧ b.y = (yi : Int) ∧
        (b.hasPlayer = true ↔ ((xi : Int) = px ∧ (yi : Int) = py)) := by
  unfold buildMap at h
  rcases hr0 : lvl.terrain[0]? with _ | row0 <;> rw [hr0] at h <;> (try dsimp only at h)
  · exact absurd h (by simp)
  · obtain ⟨hlen, hget⟩ := buildRows_get lvl row0.length px py
      (List.range lvl.terrain.length) bs h
    refine ⟨row0, rfl, by simpa using hlen, ?_, ?_⟩
    · intro row hrow
      obtain ⟨i, hlt, hi⟩ := List.getElem_of_mem hrow
      have hi? : bs[i]? = some row := by
        rw [List.getElem?_eq_some]; exact ⟨hlt, hi⟩
      obtain ⟨yv, _, hcells⟩ := hget i row hi?
      have := (buildCells_get lvl yv px py (List.range row0.length) row hcells).1
      simpa using this
    · intro yi xi b hb
      unfold get2N at hb
      rcases hrowi : bs[yi]? with _ | rowi <;> rw [hrowi] at hb
      · exact absurd hb (by simp)
      · obtain ⟨yv, hyv, hcells⟩ := hget yi rowi hrowi
        have hyilt : yi < lvl.terrain.length := by
          have : yi < bs.length := by
            rw [List.getElem?_eq_some] at hrowi
            exact hrowi.1
          rw [hlen] at this
          simpa using this
        rw [List.getElem?_range hyilt] at hyv
        obtain rfl := Option.some_inj.mp hyv
        obtain ⟨xv, hxv, hmk⟩ :=
          (buildCells_get lvl yi px py (List.range row0.length) rowi hcells).2 xi b hb
        have hxilt : xi < row0.length := by
          by_contra hcon
          rw [List.getElem?_eq_none (by simp; omega)] at hxv
          exact absurd hxv (by simp)
        rw [List.getElem?_range hxilt] at hxv
        obtain rfl := Option.some_inj.mp hxv
        exact mkBlock_fields lvl xi yi px py b hmk

/-- Every shipped level is square with in-bounds start coordinates. -/
lemma catalog_level_ok (name : String) (lvl : LevelDef)
    (h : mapsCatalog name = some lvl) :
    ∃ row0, lvl.terrain[0]? = some row0 ∧ row0.length = lvl.terrain.length ∧
      0 ≤ lvl.startX ∧ lvl.startX < (lvl.terrain.length : Int) ∧
      0 ≤ lvl.startY ∧ lvl.startY < (lvl.terrain.length : Int) := by
  unfold mapsCatalog at h
  split_ifs at h <;>
    · obtain rfl := Option.some_inj.mp h
      exact ⟨_, rfl, by decide, by decide, by decide, by decide, by decide⟩

/-- The grid/position invariant: the grid is square, the tracked position is
in bounds, every block stores its own grid coordinates, and a set player
flag occurs only at the tracked position. -/
def GInv (s : GState) : Prop :=
  (∀ row ∈ s.map.blocks, row.length = s.map.blocks.length) ∧
  (0 ≤ s.x ∧ s.x < (s.map.blocks.length : Int)) ∧
  (0 ≤ s.y ∧ s.y < (s.map.blocks.length : Int)) ∧
  (∀ yi xi b, get2N s.map.blocks yi xi = some b →
     b.x = (xi : Int) ∧ b.y = (yi : Int)) ∧
  (∀ yi xi b, get2N s.map.blocks yi xi = some b → b.hasPlayer = true →
     (xi : Int) = s.x ∧ (yi : Int) = s.y)

/-- `start_level` establishes the invariant. -/
lemma inv_startLevel (name : String) (s s' : GState)
    (h : startLevel name s = some s') : GInv s' := by
  unfold startLevel at h
  rcases hname : mapsCatalog name with _ | lvl <;> rw [hname] at h <;>
    (try dsimp only at h)
  · exact absurd h (by simp)
  rcases hbm : buildMap lvl lvl.startX lvl.startY with _ | bs <;> rw [hbm] at h <;>
    (try dsimp only at h)
  · exact absurd h (by simp)
  obtain rfl := Option.some_inj.mp h
  obtain ⟨row0, hrow0, hsq0, hx0, hx1, hy0, hy1⟩ := catalog_level_ok name lvl hname
  obtain ⟨row0', hrow0', hlen, hrows, hfields⟩ :=
    buildMap_get lvl lvl.startX lvl.startY bs hbm
  rw [hrow0] at hrow0'
  obtain rfl := Option.some_inj.mp hrow0'
  unfold GInv
  dsimp only
  refine ⟨?_, ⟨hx0, ?_⟩, ⟨hy0, ?_⟩, ?_, ?_⟩
  · intro row hrow
    rw [hlen, ← hsq0]
    exact hrows row hrow
  · rw [hlen]; exact hx1
  · rw [hlen]; exact hy1
  · intro yi xi b hb
    exact ⟨(hfields yi xi b hb).1, (hfields yi xi b hb).2.1⟩
  · intro yi xi b hb hfl
    exact (hfields yi xi b hb).2.2.mp hfl

/-- The movement phase preserves the invariant. -/
lemma inv_doMove (dir : String) (s s1 : GState) (hinv : GInv s)
    (h : doMove dir s = some s1) : GInv s1 := by
  obtain ⟨hsq, ⟨hx0, hx1⟩, ⟨hy0, hy1⟩, hcoords, hflag⟩ := hinv
  obtain h0 | ⟨dest, cur, dest1, row0, hdest, hce, hcur, hdest1, hrow0,
    hb1, hb2, hb3, hb4, hmov⟩ := doMove_spec dir s s1 h
  · rw [h0]; exact ⟨hsq, ⟨hx0, hx1⟩, ⟨hy0, hy1⟩, hcoords, hflag⟩
  · subst hmov
    have hnx0 : 0 ≤ (newCoords dir s.x s.y).1 := by omega
    have hny0 : 0 ≤ (newCoords dir s.x s.y).2 := by omega
    have hrow0len : row0.length = s.map.blocks.length :=
      hsq row0 (pyGet_mem _ _ _ hrow0)
    have hcurN : get2N s.map.blocks s.y.toNat s.x.toNat = some cur := by
      rw [← get2_eq_get2N _ _ _ hy0 hx0]; exact hcur
    have hdest1N : get2N (set2 s.map.blocks s.y s.x (blockLeave cur))
        (newCoords dir s.x s.y).2.toNat (newCoords dir s.x s.y).1.toNat = some dest1 := by
      rw [← get2_eq_get2N _ _ _ hny0 hnx0]; exact hdest1
    have hcoords1 : ∀ yi xi b,
        get2N (set2 s.map.blocks s.y s.x (blockLeave cur)) yi xi = some b →
        b.x = (xi : Int) ∧ b.y = (yi : Int) := by
      intro yi xi b hb
      by_cases hc : yi = s.y.toNat ∧ xi = s.x.toNat
      · obtain ⟨rfl, rfl⟩ := hc
        rw [get2N_set2_self _ _ _ _ hy0 hx0 cur hcurN] at hb
        obtain rfl := Option.some_inj.mp hb
        exact ⟨by rw [(blockLeave_xy cur).1, (hcoords _ _ cur hcurN).1],
               by rw [(blockLeave_xy cur).2, (hcoords _ _ cur hcurN).2]⟩
      · rw [get2N_set2_ne _ _ _ _ hy0 hx0 yi xi hc] at hb
        exact hcoords yi xi b hb
    unfold GInv
    dsimp only
    refine ⟨?_, ⟨hnx0, ?_⟩, ⟨hny0, ?_⟩, ?_, ?_⟩
    · exact set2_square _ _ _ _ (set2_square _ _ _ _ hsq)
    · rw [set2_length, set2_length]; exact hb2
    · rw [set2_length, set2_length, ← hrow0len]; exact hb4
    · intro yi xi b hb
      by_cases hc : yi = (newCoords dir s.x s.y).2.toNat ∧
          xi = (newCoords dir s.x s.y).1.toNat
      · obtain ⟨rfl, rfl⟩ := hc
        rw [get2N_set2_self _ _ _ _ hny0 hnx0 dest1 hdest1N] at hb
        obtain rfl := Option.some_inj.mp hb
        exact ⟨by rw [(blockEnter_xy dest1 (pview s)).1,
                 (hcoords1 _ _ dest1 hdest1N).1],
               by rw [(blockEnter_xy dest1 (pview s)).2,
                 (hcoords1 _ _ dest1 hdest1N).2]⟩
      · rw [get2N_set2_ne _ _ _ _ hny0 hnx0 yi xi hc] at hb
        exact hcoords1 yi xi b hb
    · intro yi xi b hb hfl
      by_cases hc : yi = (newCoords dir s.x s.y).2.toNat ∧
          xi = (newCoords dir s.x s.y).1.toNat
      · obtain ⟨rfl, rfl⟩ := hc
        exact ⟨Int.toNat_of_nonneg hnx0, Int.toNat_of_nonneg hny0⟩
      · rw [get2N_set2_ne _ _ _ _ hny0 hnx0 yi xi hc] at hb
        by_cases hc2 : yi = s.y.toNat ∧ xi = s.x.toNat
        · obtain ⟨rfl, rfl⟩ := hc2
          rw [get2N_set2_self _ _ _ _ hy0 hx0 cur hcurN] at hb
          obtain rfl := Option.some_inj.mp hb
          rw [blockLeave_hasPlayer] at hfl
          exact absurd hfl (by simp)
        · rw [get2N_set2_ne _ _ _ _ hy0 hx0 yi xi hc2] at hb
          obtain ⟨hox, hoy⟩ := hflag yi xi b hb hfl
          exfalso
          exact hc2 ⟨by omega, by omega⟩

/-- A successful `take_turn` preserves the invariant. -/
lemma inv_takeTurn (dir name : String) (s s' : GState) (hinv : GInv s)
    (h : takeTurn dir name s = some s') : GInv s' := by
  by_cases hgo : s.gameOver = true
  · unfold takeTurn at h
    rw [if_pos hgo] at h
    rcases hsl : startLevel name s with _ | s1 <;> rw [hsl] at h <;>
      (try dsimp only at h)
    · exact absurd h (by simp)
    · obtain rfl := Option.some_inj.mp h
      have h1 := inv_startLevel name s s1 hsl
      exact h1
  · have hgo' : s.gameOver = false := by revert hgo; cases s.gameOver <;> simp
    obtain ⟨cur, s1, hcur, hmv, hs'⟩ := takeTurn_not_over dir name s s' hgo' h
    have h1 := inv_doMove dir s s1 hinv hmv
    rw [hs']
    have hf := terminalChecks_frame s1
    unfold GInv at h1 ⊢
    rw [hf.1, hf.2.1, hf.2.2.1]
    exact h1

/-- Every reachable state satisfies the grid/position invariant. -/
lemma reachable_inv (s : GState) (h : Reachable s) : GInv s := by
  induction h with
  | init name t ht => exact inv_startLevel name freshPlayer t ht
  | step dir name t t' _ hstep ih => exact inv_takeTurn dir name t t' ih hstep

/-- Total number of set player flags on the grid. -/
def flagCount (bs : List (List Block)) : Nat :=
  (bs.map (fun row => (row.filter (fun b => b.hasPlayer)).length)).sum

/-- A row with no set flag filters to nothing. -/
lemma filter_flag_nil (row : List Block)
    (h : ∀ (i : Nat) (b : Block), row[i]? = some b → b.hasPlayer = false) :
    row.filter (fun b => b.hasPlayer) = [] := by
  rw [List.filter_eq_nil_iff]
  intro b hb
  obtain ⟨i, hlt, hi⟩ := List.getElem_of_mem hb
  have := h i b (by rw [List.getElem?_eq_some]; exact ⟨hlt, hi⟩)
  simp [this]

/-- A row whose flags all sit at one index holds at most one flag. -/
lemma filter_flag_le_one (row : List Block) (k : Nat)
    (h : ∀ (i : Nat) (b : Block), row[i]? = some b → b.hasPlayer = true → i = k) :
    (row.filter (fun b => b.hasPlayer)).length ≤ 1 := by
  induction row generalizing k with
  | nil => simp
  | cons b0 t ih =>
    by_cases hb0 : b0.hasPlayer = true
    · rw [List.filter_cons_of_pos (by simp [hb0])]
      have hk : 0 = k := h 0 b0 (by simp) hb0
      have ht : t.filter (fun b => b.hasPlayer) = [] := by
        apply filter_flag_nil
        intro i b hbi
        by_contra hcon
        have hbt : b.hasPlayer = true := by revert hcon; cases b.hasPlayer <;> simp
        have := h (i + 1) b (by simpa using hbi) hbt
        omega
      rw [ht]; simp
    · rw [List.filter_cons_of_neg (by simp [hb0])]
      cases k with
      | zero =>
        have ht : t.filter (fun b => b.hasPlayer) = [] := by
          apply filter_flag_nil
          intro i b hbi
          by_contra hcon
          have hbt : b.hasPlayer = true := by revert hcon; cases b.hasPlayer <;> simp
          have := h (i + 1) b (by simpa using hbi) hbt
          omega
        rw [ht]; simp
      | succ j =>
        apply ih j
        intro i b hbi hbt
        have := h (i + 1) b (by simpa using hbi) hbt
        omega

/-- A grid with no set flag counts zero flags. -/
lemma flagCount_zero (bs : List (List Block))
    (h : ∀ (yi xi : Nat) (b : Block), get2N bs yi xi = some b →
      b.hasPlayer = false) :
    flagCount bs = 0 := by
  induction bs with
  | nil => rfl
  | cons row rest ih =>
    unfold flagCount
    simp only [List.map_cons, List.sum_cons]
    have h1 : row.filter (fun b => b.hasPlayer) = [] := by
      apply filter_flag_nil
      intro i b hbi
      exact h 0 i b (by simpa [get2N] using hbi)
    have h2 : flagCount rest = 0 := by
      apply ih
      intro yi xi b hb
      exact h (yi + 1) xi b (by simpa [get2N] using hb)
    unfold flagCount at h2
    rw [h1, h2]
    simp

/-- A grid whose flags all sit at one slot holds at most one flag. -/
lemma flagCount_le_one (bs : List (List Block)) (xk yk : Nat)
    (h : ∀ (yi xi : Nat) (b : Block), get2N bs yi xi = some b →
      b.hasPlayer = true → xi = xk ∧ yi = yk) :
    flagCount bs ≤ 1 := by
  induction bs generalizing yk with
  | nil => simp [flagCount]
  | cons row rest ih =>
    unfold flagCount
    simp only [List.map_cons, List.sum_cons]
    cases yk with
    | zero =>
      have h1 : (row.filter (fun b => b.hasPlayer)).length ≤ 1 := by
        apply filter_flag_le_one row xk
        intro i b hbi hbt
        exact (h 0 i b (by simpa [get2N] using hbi) hbt).1
      have h2 : flagCount rest = 0 := by
        apply flagCount_zero
        intro yi xi b hb
        by_contra hcon
        have hbt : b.hasPlayer = true := by revert hcon; cases b.hasPlayer <;> simp
        have := (h (yi + 1) xi b (by simpa [get2N] using hb) hbt).2
        omega
      unfold flagCount at h2
      rw [h2]
      omega
    | succ j =>
      have h1 : row.filter (fun b => b.hasPlayer) = [] := by
        apply filter_flag_nil
        intro i b hbi
        by_contra hcon
        have hbt : b.hasPlayer = true := by revert hcon; cases b.hasPlayer <;> simp
        have := (h 0 i b (by simpa [get2N] using hbi) hbt).2
        omega
      have h2 : flagCount rest ≤ 1 := by
        apply ih j
        intro yi xi b hb hbt
        have := h (yi + 1) xi b (by simpa [get2N] using hb) hbt
        exact ⟨this.1, by omega⟩
      unfold flagCount at h2
      rw [h1]
      simpa using h2

/-- C9: in every reachable state (after grid construction and after every
completed turn), every set player flag sits at the player's tracked grid
slot with matching stored coordinates, and at most one flag is set. -/
theorem player_flag_unique (s : GState) (h : Reachable s) :
    (∀ (yi xi : Nat) (b : Block), get2N s.map.blocks yi xi = some b →
       b.hasPlayer = true →
       (xi : Int) = s.x ∧ (yi : Int) = s.y ∧ b.x = s.x ∧ b.y = s.y) ∧
    flagCount s.map.blocks ≤ 1 := by
  obtain ⟨hsq, ⟨hx0, hx1⟩, ⟨hy0, hy1⟩, hcoords, hflag⟩ := reachable_inv s h
  constructor
  · intro yi xi b hb hfl
    obtain ⟨h1, h2⟩ := hflag yi xi b hb hfl
    obtain ⟨h3, h4⟩ := hcoords yi xi b hb
    exact ⟨h1, h2, by rw [h3, h1], by rw [h4, h2]⟩
  · apply flagCount_le_one s.map.blocks s.x.toNat s.y.toNat
    intro yi xi b hb hfl
    obtain ⟨h1, h2⟩ := hflag yi xi b hb hfl
    constructor <;> omega

/-- Closed instance of `player_flag_unique` at the freshly started demo
level: the single flag sits at the start slot (2, 0). -/
theorem player_flag_unique_witness :
    ((2 : Nat) : Int) = demoInit.x ∧ ((0 : Nat) : Int) = demoInit.y ∧
    (testBlock Tile.ice none 2 0 true).x = demoInit.x ∧
    (testBlock Tile.ice none 2 0 true).y = demoInit.y ∧
    flagCount demoInit.map.blocks ≤ 1 := by
  have h := player_flag_unique demoInit (Reachable.init "demo" demoInit rfl)
  have h2 := h.1 0 2 (testBlock Tile.ice none 2 0 true) rfl rfl
  exact ⟨h2.1, h2.2.1, h2.2.2.1, h2.2.2.2, h.2⟩
